/-
Verification of the `import` command of gh-migrate-project
(src/commands/import.ts), shallowly embedded in Lean 4.

JavaScript `Map`s are modelled as insertion-ordered association lists
(`mapSet` overwrites in place, `mapGet` finds the first matching key, which is
unique once every insertion went through `mapSet`). Remote GraphQL calls are
modelled by an environment of response functions plus an explicit trace of
`Call` events, so that ordering properties of the side effects can be stated.
-/
import Mathlib

namespace GhMigrateProject

/-! ## JavaScript `Map` model -/

def mapGet {α : Type} (m : List (String × α)) (k : String) : Option α :=
  (m.find? (fun p => p.1 == k)).map Prod.snd

def mapSet {α : Type} (m : List (String × α)) (k : String) (v : α) :
    List (String × α) :=
  if m.any (fun p => p.1 == k) then
    m.map (fun p => if p.1 == k then (k, v) else p)
  else
    m ++ [(k, v)]

/-- JavaScript truthiness of a `string | undefined` value: `undefined` and the
empty string are falsy. -/
def jsTruthyStr : Option String → Bool
  | some s => s != ""
  | none => false

/-! ## Custom field option correlation (import.ts, `correlateCustomFieldOptions`) -/

/-- An option of a single-select field, as returned by the GraphQL API
(`{ id: string; name: string }`). -/
structure FieldOption where
  id : String
  name : String
deriving DecidableEq

/-- One step of the `for (const oldOption of oldOptions)` loop in
`correlateCustomFieldOptions`: find the first new option with the same name
and record the ID pair; silently do nothing when there is none. -/
def correlateStep (newOptions : List FieldOption) (map : List (String × String))
    (oldOption : FieldOption) : List (String × String) :=
  match newOptions.find? (fun option => option.name == oldOption.name) with
  | some newOption => mapSet map oldOption.id newOption.id
  | none => map

/-- `correlateCustomFieldOptions(oldOptions, newOptions)` from import.ts:
throws when the two lists have different lengths, otherwise pairs each old
option with the first new option bearing the same name. -/
def correlateCustomFieldOptions (oldOptions newOptions : List FieldOption) :
    Except String (List (String × String)) :=
  if oldOptions.length ≠ newOptions.length then
    .error "Unable to correlate custom field options: old and new options fields have different numbers of options"
  else
    .ok (oldOptions.foldl (correlateStep newOptions) [])

/-- The ID of the first new option whose name matches `o`, used to describe
the result of the correlation fold. -/
def targetIdOf (newOptions : List FieldOption) (o : FieldOption) : String :=
  ((newOptions.find? (fun option => option.name == o.name)).map FieldOption.id).getD ""

/-! ## Repository mapping file (import.ts, `readRepositoryMappings`)

The CSV collaborator (`@fast-csv/parse` with `headers: true`) is out of scope;
its parsed shape is modelled: each data row becomes an object whose keys are
the file's column headers, in header order.  `readRepositoryMappings` streams
those row objects: the first row whose key set is not exactly

`{source_repository, target_repository}` rejects the promise; rows with a falsy
`target_repository` are skipped; the rest are inserted into a `Map`.  With no
data rows, no check ever runs and the promise resolves with the empty map. -/

structure CsvFile where
  headers : List String
  records : List (List String)
deriving DecidableEq

def parsedRows (file : CsvFile) : List (List (String × String)) :=
  file.records.map (fun r => file.headers.zip r)

def rowGet (row : List (String × String)) (k : String) : Option String :=
  mapGet row k

def readRows : List (List (String × String)) → List (String × String) →
    Except String (List (String × String))
  | [], acc => .ok acc
  | row :: rest, acc =>
    let rowHeaders := row.map Prod.fst
    if rowHeaders.length = 2 ∧ "source_repository" ∈ rowHeaders ∧
        "target_repository" ∈ rowHeaders then
      if (rowGet row "target_repository").getD "" ≠ "" then
        readRows rest
          (mapSet acc ((rowGet row "source_repository").getD "")
            ((rowGet row "target_repository").getD ""))
      else
        readRows rest acc
    else
      .error "Your --repository-mappings-csv is invalid. Please start from a template CSV generated by the `export` command, filling out the `target_repository` field."

def readRepositoryMappings (file : CsvFile) : Except String (List (String × String)) :=
  readRows (parsedRows file) []

/-! ## Status field reconciliation (import.ts, `promptUntilStatusFieldsCorrelate`)

The recursive human-in-the-loop protocol.  Each recursion step fetches the
target project's "Status" field and attempts the by-name correlation; only on
failure does it print a prompt (a verbose one on the first run, a short one on
retries) and block on the operator.  The successive fetch results are modelled
as a list; an empty remainder means the operator session is still open. -/

structure StatusField where
  id : String
  options : List FieldOption
deriving DecidableEq

inductive StatusEvent where
  | fetchAndCheck (target : StatusField)
  | promptFirst (expectedOptions : List String) (settingsUrl : String)
  | promptRetry
  | done
deriving DecidableEq

def StatusEvent.isPrompt : StatusEvent → Bool
  | .promptFirst _ _ => true
  | .promptRetry => true
  | _ => false

def promptUntilStatusFieldsCorrelate (sourceStatusField : StatusField)
    (targetProjectUrl : String) :
    List StatusField → Bool →
    List StatusEvent × Option (String × List (String × String))
  | [], _ => ([], none)
  | target :: rest, isFirstRun =>
    match correlateCustomFieldOptions sourceStatusField.options target.options with
    | .ok mappings => ([.fetchAndCheck target, .done], some (target.id, mappings))
    | .error _ =>
      let promptEvent := if isFirstRun then
          StatusEvent.promptFirst (sourceStatusField.options.map FieldOption.name)
            (targetProjectUrl ++ "/settings/fields/Status")
        else
          StatusEvent.promptRetry
      let next := promptUntilStatusFieldsCorrelate sourceStatusField targetProjectUrl
        rest false
      (.fetchAndCheck target :: promptEvent :: next.1, next.2)

/-! ## Data model of the snapshot (graphql-types, as consumed by import.ts) -/

/-- A field value attached to a snapshot project item
(`ProjectV2ItemField*Value`).  `number` is a JavaScript number; the import
command never computes with it, only copies it, so it is embedded opaquely as
an integer. -/
structure SourceFieldValue where
  typename : String
  fieldId : String
  fieldName : String
  date : Option String
  number : Option Int
  text : Option String
  optionId : Option String
deriving DecidableEq

inductive ItemContent where
  | issue (repositoryNameWithOwner : String) (number : Nat) (title : String)
  | pullRequest (repositoryNameWithOwner : String) (number : Nat) (title : String)
  | draftIssue (title : String) (body : String) (creatorLogin : String)
      (createdAt : String)
  | unknown (typename : String)
deriving DecidableEq

structure ProjectItem where
  id : String
  isArchived : Bool
  content : ItemContent
  fieldValues : List SourceFieldValue
deriving DecidableEq

/-- A source single-select option as exported, with possibly missing
description and color. -/
structure SourceOption where
  id : String
  name : String
  color : Option String
  description : Option String
deriving DecidableEq

def SourceOption.toFieldOption (o : SourceOption) : FieldOption := ⟨o.id, o.name⟩

structure ProjectField where
  id : String
  name : String
  dataType : String
  options : Option (List SourceOption)
deriving DecidableEq

structure Project where
  title : String
  fields : List ProjectField
  repositories : List String
deriving DecidableEq

/-- Entry of the `sourceToTargetCustomFieldMappings` map (`CustomField` in
import.ts): the target field ID plus, for select fields, the option
correlation. -/
structure CustomField where
  targetId : String
  optionMappings : Option (List (String × String))
deriving DecidableEq

/-- An option payload sent to `createProjectV2Field` after placeholder
substitution. -/
structure SelectOption where
  name : String
  description : String
  color : String
deriving DecidableEq

structure CreatedProjectField where
  id : String
  name : String
  options : List FieldOption
deriving DecidableEq

/-- The `value` object passed to `updateProjectV2ItemFieldValue`. -/
structure FieldValuePayload where
  date : Option String
  number : Option Int
  text : Option String
  singleSelectOptionId : Option String
deriving DecidableEq

/-! ## Remote system environment and call trace -/

/-- Responses of the remote GraphQL collaborator, one function per query or
mutation the import command issues.  `resolveIssueOrPullRequest` returns
`none` exactly when the API reports that the reference cannot be resolved. -/
structure Env where
  ownerId : String
  createdProjectId : String
  createdProjectUrl : String
  repositoryGlobalId : String → String → String
  createFieldResult : String → String → List SelectOption → CreatedProjectField
  statusFetches : List StatusField
  resolveIssueOrPullRequest : String → String → Nat → Option (String × String)
  addItemResult : String → String
  addDraftResult : String → String → String

/-- Observable actions of one run, in order of occurrence. -/
inductive Call where
  | warn (message : String)
  | resolveOwner (login : String)
  | createProject (ownerId : String) (title : String)
  | getRepositoryId (owner : String) (name : String)
  | linkRepository (repositoryId : String)
  | createField (name : String) (dataType : String) (options : List SelectOption)
  | status (event : StatusEvent)
  | resolveContent (owner : String) (name : String) (number : Nat)
  | addItem (contentId : String)
  | addDraft (title : String) (body : String)
  | archive (itemId : String)
  | updateFieldValue (itemId : String) (fieldId : String) (value : FieldValuePayload)
deriving DecidableEq

def Call.isCreation : Call → Bool
  | .addItem _ => true
  | .addDraft _ _ => true
  | _ => false

def Call.isArchive : Call → Bool
  | .archive _ => true
  | _ => false

def Call.isWarn : Call → Bool
  | .warn _ => true
  | _ => false

/-! ## Item replication engine (import.ts, item helpers and the item loop) -/

/-- Split a character list at every occurrence of the separator, as
JavaScript `String.prototype.split` does for a one-character separator. -/
def splitOnChar (c : Char) : List Char → List (List Char)
  | [] => [[]]
  | x :: xs =>
    let rest := splitOnChar c xs
    if x = c then
      [] :: rest
    else
      match rest with
      | r :: rs => (x :: r) :: rs
      | [] => [[x]]

/-- The `destinationNameWithOwner.split('/')` destructuring into owner and
repository name. -/
def splitOwnerName (s : String) : String × String :=
  let parts := (splitOnChar '/' s.data).map String.mk
  ((parts.get? 0).getD "", (parts.get? 1).getD "")

/-- `isProjectItemCustomFieldValue` from import.ts: drop the system-managed
field value kinds, then drop the `Title` field. -/
def isProjectItemCustomFieldValue (fv : SourceFieldValue) : Bool :=
  if ["ProjectV2ItemFieldRepositoryValue",
      "ProjectV2ItemFieldLabelValue",
      "ProjectV2ItemFieldUserValue",
      "ProjectV2ItemFieldPullRequestValue",
      "ProjectV2ItemFieldReviewerValue",
      "ProjectV2ItemFieldIterationValue",
      "ProjectV2ItemFieldMilestoneValue",
      "ProjectV2ItemFieldReviewerValue"].contains fv.typename then
    false
  else
    fv.fieldName != "Title"

/-- The draft-issue body synthesized by
`createProjectItemReferencingDraftIssue`. -/
def draftIssueBody (creatorLogin createdAt originalBody : String) : String :=
  "**Created by `@" ++ creatorLogin ++ "` on " ++ createdAt ++ "**\n\n" ++
    originalBody

/-- `createProjectItemReferencingIssueOrPullRequest` from import.ts: look up
the repository mapping (a falsy entry skips with a warning), resolve the
issue or pull request by number (absence skips with a warning), warn on a
title mismatch, then add the item. -/
def createProjectItemReferencingIssueOrPullRequest (env : Env)
    (repositoryMappings : List (String × String)) (itemId : String)
    (sourceNameWithOwner : String) (number : Nat) (sourceTitle : String) :
    List Call × Option String :=
  let destOpt := mapGet repositoryMappings sourceNameWithOwner
  if jsTruthyStr destOpt = false then
    ([Call.warn ("Skipping project item " ++ itemId ++
      " because there is no repository mapping for " ++ sourceNameWithOwner)],
     none)
  else
    let dest := destOpt.getD ""
    let ownerName := splitOwnerName dest
    match env.resolveIssueOrPullRequest ownerName.1 ownerName.2 number with
    | none =>
      ([Call.resolveContent ownerName.1 ownerName.2 number,
        Call.warn ("Skipping project item " ++ itemId ++
          " because issue/pull request " ++ dest ++ "#" ++ toString number ++
          " does not exist")],
       none)
    | some contentIdAndTitle =>
      let titleWarnings := if sourceTitle ≠ contentIdAndTitle.2 then
          [Call.warn ("The title of issue/pull request " ++ dest ++ "#" ++
            toString number ++ ", referenced in project item " ++ itemId ++
            ", does not match " ++ sourceNameWithOwner ++ "#" ++
            toString number ++
            ". You may have mapped the incorrect repository, or there may be an issue with your migration.")]
        else
          []
      (Call.resolveContent ownerName.1 ownerName.2 number ::
        titleWarnings ++ [Call.addItem contentIdAndTitle.1],
       some (env.addItemResult contentIdAndTitle.1))

/-- `createProjectItem` from import.ts: dispatch on `content.__typename`;
an unrecognized kind throws `Unknown content type`. -/
def createProjectItem (env : Env) (repositoryMappings : List (String × String))
    (item : ProjectItem) : Except String (List Call × Option String) :=
  match item.content with
  | .issue repo number title =>
    .ok (createProjectItemReferencingIssueOrPullRequest env repositoryMappings
      item.id repo number title)
  | .pullRequest repo number title =>
    .ok (createProjectItemReferencingIssueOrPullRequest env repositoryMappings
      item.id repo number title)
  | .draftIssue title body creatorLogin createdAt =>
    let fullBody := draftIssueBody creatorLogin createdAt body
    .ok ([Call.addDraft title fullBody], some (env.addDraftResult title fullBody))
  | .unknown _ => .error "Unknown content type"

/-- The field-value `value` object built in the item loop: the source value's
`date`, `number` and `text` members are copied through, and the option ID is
translated through the field's option correlation when present. -/
def buildFieldValue (fv : SourceFieldValue)
    (optionMappings : Option (List (String × String))) : FieldValuePayload :=
  ⟨fv.date, fv.number, fv.text,
    if jsTruthyStr fv.optionId && optionMappings.isSome then
      mapGet (optionMappings.getD []) (fv.optionId.getD "")
    else
      none⟩

/-- The inner field-value loop of the item loop: values whose field has no
entry in the correlation table are skipped with a warning; all others produce
an `updateProjectV2ItemFieldValue` call. -/
def replayFieldValues (fieldMappings : List (String × CustomField))
    (createdItemId : String) : List SourceFieldValue → List Call
  | [] => []
  | fv :: rest =>
    match mapGet fieldMappings fv.fieldId with
    | none =>
      Call.warn ("Skipping field " ++ fv.fieldId ++
        " because there is no mapping for the field") ::
        replayFieldValues fieldMappings createdItemId rest
    | some fieldMapping =>
      Call.updateFieldValue createdItemId fieldMapping.targetId
        (buildFieldValue fv fieldMapping.optionMappings) ::
        replayFieldValues fieldMappings createdItemId rest

/-- One iteration of the item loop: create the item (a falsy created ID means
`continue`), archive it when the source item was archived, then replay its
custom field values. -/
def runItem (env : Env) (repositoryMappings : List (String × String))
    (fieldMappings : List (String × CustomField)) (item : ProjectItem) :
    List Call × Option String :=
  match createProjectItem env repositoryMappings item with
  | .error e => ([], some e)
  | .ok result =>
    if jsTruthyStr result.2 = false then
      (result.1, none)
    else
      let createdItemId := result.2.getD ""
      let archiveCalls := if item.isArchived then [Call.archive createdItemId]
        else []
      (result.1 ++ archiveCalls ++
        replayFieldValues fieldMappings createdItemId
          (item.fieldValues.filter isProjectItemCustomFieldValue),
       none)

/-- The item loop over the whole snapshot: a thrown error aborts the run, a
skipped item just moves on. -/
def runItems (env : Env) (repositoryMappings : List (String × String))
    (fieldMappings : List (String × CustomField)) :
    List ProjectItem → List Call × Option String
  | [] => ([], none)
  | item :: rest =>
    match runItem env repositoryMappings fieldMappings item with
    | (calls, some e) => (calls, some e)
    | (calls, none) =>
      let next := runItems env repositoryMappings fieldMappings rest
      (calls ++ next.1, next.2)

/-! ## Orchestrator (import.ts, the command action) -/

/-- `isCustomField` from import.ts: the custom data types, minus the reserved
"Status" field. -/
def isCustomField (f : ProjectField) : Bool :=
  ["TEXT", "SINGLE_SELECT", "DATE", "NUMBER"].contains f.dataType &&
    f.name != "Status"

/-- Modelled from the spec: `getReferencedRepositories` lives in
src/project-items.ts, which is not part of the provided sources.  Per the
spec's data model, Issue and PullRequest content carries
`repositoryNameWithOwner`, and this helper collects the repositories the
snapshot's items reference. -/
def getReferencedRepositories (items : List ProjectItem) : List String :=
  items.foldr
    (fun item acc =>
      match item.content with
      | .issue repo _ _ => repo :: acc
      | .pullRequest repo _ _ => repo :: acc
      | _ => acc)
    []

/-- One source option prepared for `createProjectV2Field`, with warnings and
placeholder description/color for missing metadata. -/
def optionForCreation (fieldName : String) (o : SourceOption) :
    List Call × SelectOption :=
  let descWarnings := match o.description with
    | none => [Call.warn ("Added a placeholder description for option \"" ++
        o.name ++ "\" on custom field \"" ++ fieldName ++ "\"")]
    | some _ => []
  let colorWarnings := match o.color with
    | none => [Call.warn ("Added a default color for option \"" ++ o.name ++
        "\" on custom field \"" ++ fieldName ++ "\"")]
    | some _ => []
  (descWarnings ++ colorWarnings,
   ⟨o.name, o.description.getD "Placeholder description", o.color.getD "BLUE"⟩)

def optionsForCreation (fieldName : String) :
    List SourceOption → List Call × List SelectOption
  | [] => ([], [])
  | o :: rest =>
    let head := optionForCreation fieldName o
    let tail := optionsForCreation fieldName rest
    (head.1 ++ tail.1, head.2 :: tail.2)

/-- The custom-field creation loop: create each field on the target project,
correlate its options (a correlation failure is fatal), and record the
mapping. -/
def createFields (env : Env) :
    List ProjectField → List (String × CustomField) →
    List Call × Except String (List (String × CustomField))
  | [], fieldMappings => ([], .ok fieldMappings)
  | f :: rest, fieldMappings =>
    match f.options with
    | some options =>
      let prepared := optionsForCreation f.name options
      let created := env.createFieldResult f.name f.dataType prepared.2
      match correlateCustomFieldOptions (options.map SourceOption.toFieldOption)
          created.options with
      | .error e =>
        (prepared.1 ++ [Call.createField f.name f.dataType prepared.2], .error e)
      | .ok optionMappings =>
        let next := createFields env rest
          (mapSet fieldMappings f.id ⟨created.id, some optionMappings⟩)
        (prepared.1 ++ Call.createField f.name f.dataType prepared.2 :: next.1,
         next.2)
    | none =>
      let created := env.createFieldResult f.name f.dataType []
      let next := createFields env rest
        (mapSet fieldMappings f.id ⟨created.id, none⟩)
      (Call.createField f.name f.dataType [] :: next.1, next.2)

/-- The repository linking loop: unmapped source repositories are skipped with
a warning, mapped ones are resolved and linked. -/
def linkRepositories (env : Env) (repositoryMappings : List (String × String)) :
    List String → List Call
  | [] => []
  | repo :: rest =>
    let destOpt := mapGet repositoryMappings repo
    if jsTruthyStr destOpt = false then
      Call.warn ("Skipping source repository " ++ repo ++
        " because there is no repository mapping") ::
        linkRepositories env repositoryMappings rest
    else
      let ownerName := splitOwnerName (destOpt.getD "")
      Call.getRepositoryId ownerName.1 ownerName.2 ::
        Call.linkRepository (env.repositoryGlobalId ownerName.1 ownerName.2) ::
        linkRepositories env repositoryMappings rest

inductive RunOutcome where
  | finished (url : String)
  | failed (message : String)
  | awaitingOperator
deriving DecidableEq

/-- The orchestrating command action of import.ts, starting after the input
files have been loaded (file existence checks, version checks and telemetry
are external collaborators): the empty-mappings guard, owner resolution,
project creation, repository linking, custom field creation, the Status
reconciliation protocol, and the item loop. -/
def runImport (env : Env) (sourceProject : Project)
    (sourceProjectItems : List ProjectItem)
    (repositoryMappings : List (String × String))
    (repositoryMappingsPath : String) (projectOwner : String)
    (projectTitle : Option String) : List Call × RunOutcome :=
  let referencedRepositories := getReferencedRepositories sourceProjectItems
  if referencedRepositories.length ≠ 0 ∧ repositoryMappings.length = 0 then
    ([], .failed ("You must update your repositories mapping file `" ++
      repositoryMappingsPath ++
      "` with at least one repository mapping. Please update your mappings, and try again.."))
  else
    let title := match projectTitle with
      | some t => if t = "" then sourceProject.title else t
      | none => sourceProject.title
    let headCalls := [Call.resolveOwner projectOwner,
      Call.createProject env.ownerId title]
    let linkCalls := linkRepositories env repositoryMappings
      sourceProject.repositories
    let fieldsStep := createFields env (sourceProject.fields.filter isCustomField) []
    match fieldsStep.2 with
    | .error e => (headCalls ++ linkCalls ++ fieldsStep.1, .failed e)
    | .ok fieldMappings =>
      match sourceProject.fields.find? (fun f => f.name == "Status") with
      | none =>
        (headCalls ++ linkCalls ++ fieldsStep.1,
         .failed "TypeError: the source project has no Status field")
      | some statusField =>
        match statusField.options with
        | none =>
          (headCalls ++ linkCalls ++ fieldsStep.1,
           .failed "TypeError: the Status field has no options")
        | some statusOptions =>
          let statusStep := promptUntilStatusFieldsCorrelate
            ⟨statusField.id, statusOptions.map SourceOption.toFieldOption⟩
            env.createdProjectUrl env.statusFetches true
          let statusCalls := statusStep.1.map Call.status
          match statusStep.2 with
          | none =>
            (headCalls ++ linkCalls ++ fieldsStep.1 ++ statusCalls,
             .awaitingOperator)
          | some targetStatus =>
            let fieldMappingsWithStatus := mapSet fieldMappings statusField.id
              ⟨targetStatus.1, some targetStatus.2⟩
            let itemsStep := runItems env repositoryMappings
              fieldMappingsWithStatus sourceProjectItems
            let allCalls := headCalls ++ linkCalls ++ fieldsStep.1 ++
              statusCalls ++ itemsStep.1
            match itemsStep.2 with
            | some e => (allCalls, .failed e)
            | none => (allCalls, .finished env.createdProjectUrl)

/-- A small concrete remote environment used to evaluate the theorems on
closed inputs. -/
def sampleEnv : Env :=
  ⟨"O1", "P1", "https://example.test/projects/1",
   fun _ _ => "R1",
   fun name _ _ => ⟨"TF-" ++ name, name, []⟩,
   [],
   fun _ _ _ => some ("C1", "Title"),
   fun _ => "I1",
   fun _ _ => "D1"⟩

/-- A variant of `sampleEnv` whose issue lookups always fail to resolve. -/
def sampleEnvNoContent : Env :=
  ⟨"O1", "P1", "https://example.test/projects/1",
   fun _ _ => "R1",
   fun name _ _ => ⟨"TF-" ++ name, name, []⟩,
   [],
   fun _ _ _ => none,
   fun _ => "I1",
   fun _ _ => "D1"⟩

/-! ## Helper lemmas -/

theorem mapGet_nil {α : Type} (k : String) : mapGet ([] : List (String × α)) k = none := rfl

theorem mapGet_cons {α : Type} (p : String × α) (m : List (String × α)) (k : String) :
    mapGet (p :: m) k = if p.1 == k then some p.2 else mapGet m k := by
  simp only [mapGet, List.find?]
  cases h : p.1 == k <;> simp [h]

theorem mapGet_eq_none_of_not_mem {α : Type} {m : List (String × α)} {k : String}
    (h : k ∉ m.map Prod.fst) : mapGet m k = none := by
  induction m with
  | nil => rfl
  | cons p rest ih =>
    simp only [List.map_cons, List.mem_cons, not_or] at h
    rw [mapGet_cons]
    have hne : (p.1 == k) = false := by
      simp only [beq_eq_false_iff_ne, ne_eq]
      exact fun hk => h.1 hk.symm
    simp only [hne, Bool.false_eq_true, if_false]
    exact ih h.2

theorem mapGet_of_nodup {α : Type} {m : List (String × α)} {k : String} {v : α}
    (hnodup : (m.map Prod.fst).Nodup) (hmem : (k, v) ∈ m) : mapGet m k = some v := by
  induction m with
  | nil => cases hmem
  | cons p rest ih =>
    simp only [List.map_cons, List.nodup_cons] at hnodup
    rw [mapGet_cons]
    rcases List.mem_cons.mp hmem with h | h
    · subst h; simp
    · have hne : (p.1 == k) = false := by
        simp only [beq_eq_false_iff_ne, ne_eq]
        intro hk
        exact hnodup.1 (hk ▸ (List.mem_map.mpr ⟨(k, v), h, rfl⟩))
      simp only [hne, Bool.false_eq_true, if_false]
      exact ih hnodup.2 h

theorem mapGet_append {α : Type} (m₁ m₂ : List (String × α)) (k : String) :
    mapGet (m₁ ++ m₂) k = ((mapGet m₁ k).orElse (fun _ => mapGet m₂ k)) := by
  induction m₁ with
  | nil => simp [mapGet_nil, Option.orElse]
  | cons p rest ih =>
    rw [List.cons_append, mapGet_cons, mapGet_cons]
    cases h : p.1 == k <;> simp [ih, Option.orElse]

theorem mapGet_eq_none_iff {α : Type} (m : List (String × α)) (k : String) :
    mapGet m k = none ↔ m.any (fun p => p.1 == k) = false := by
  induction m with
  | nil => simp [mapGet_nil]
  | cons p rest ih =>
    rw [mapGet_cons]
    cases h : p.1 == k
    · simp only [h, Bool.false_eq_true, if_false, List.any_cons, Bool.false_or]
      exact ih
    · simp [h]

theorem mapSet_of_get_eq_none {α : Type} {m : List (String × α)} {k : String} (v : α)
    (h : mapGet m k = none) : mapSet m k v = m ++ [(k, v)] := by
  rw [mapGet_eq_none_iff] at h
  simp [mapSet, h]

theorem mapGet_map_overwrite_ne {α : Type} {k i : String} (hne : k ≠ i) (v : α) :
    ∀ m : List (String × α),
      mapGet (m.map (fun p => if p.1 == k then (k, v) else p)) i = mapGet m i := by
  intro m
  induction m with
  | nil => rfl
  | cons p rest ih =>
    rw [List.map_cons, mapGet_cons, mapGet_cons]
    cases hp : p.1 == k
    · simp only [hp, Bool.false_eq_true, if_false]
      cases hpi : p.1 == i
      · simp only [hpi, Bool.false_eq_true, if_false]
        exact ih
      · simp only [hpi, if_true]
    · simp only [hp, if_true]
      have h1 : (k == i) = false := beq_eq_false_iff_ne.mpr hne
      have h2 : (p.1 == i) = false := by
        refine beq_eq_false_iff_ne.mpr (fun h => ?_)
        exact hne ((eq_of_beq hp).symm.trans h)
      simp only [h1, h2, Bool.false_eq_true, if_false]
      exact ih

theorem mapGet_mapSet_ne {α : Type} {k i : String} (hne : k ≠ i) (m : List (String × α))
    (v : α) : mapGet (mapSet m k v) i = mapGet m i := by
  unfold mapSet
  cases hany : m.any (fun p => p.1 == k)
  · simp only [Bool.false_eq_true, if_false]
    rw [mapGet_append]
    rw [mapGet_cons]
    have : (k == i) = false := beq_eq_false_iff_ne.mpr hne
    simp only [this, Bool.false_eq_true, if_false, mapGet_nil]
    cases mapGet m i <;> simp [Option.orElse]
  · simp only [if_true]
    exact mapGet_map_overwrite_ne hne v m

theorem mapGet_mapSet_self {α : Type} (m : List (String × α)) (k : String) (v : α) :
    mapGet (mapSet m k v) k = some v := by
  unfold mapSet
  cases hany : m.any (fun p => p.1 == k)
  · simp only [Bool.false_eq_true, if_false]
    rw [mapGet_append, (mapGet_eq_none_iff m k).mpr hany]
    simp [Option.orElse, mapGet_cons]
  · simp only [if_true]
    induction m with
    | nil => cases hany
    | cons p rest ih =>
      rw [List.map_cons, mapGet_cons]
      cases hp : p.1 == k
      · simp only [hp, Bool.false_eq_true, if_false]
        rw [List.any_cons, hp, Bool.false_or] at hany
        exact ih hany
      · simp [hp]

theorem correlate_fold_get_none (newOptions : List FieldOption) :
    ∀ (opts : List FieldOption) (acc : List (String × String)) (i : String),
      mapGet acc i = none →
      (∀ o ∈ opts, o.id = i →
        newOptions.find? (fun option => option.name == o.name) = none) →
      mapGet (opts.foldl (correlateStep newOptions) acc) i = none := by
  intro opts
  induction opts with
  | nil => intro acc i hacc _; exact hacc
  | cons o rest ih =>
    intro acc i hacc h
    rw [List.foldl_cons]
    cases hfind : newOptions.find? (fun option => option.name == o.name) with
    | none =>
      simp only [correlateStep, hfind]
      exact ih acc i hacc (fun o' ho' => h o' (List.mem_cons_of_mem _ ho'))
    | some n =>
      simp only [correlateStep, hfind]
      have hne : o.id ≠ i := by
        intro hid
        rw [h o (List.mem_cons_self _ _) hid] at hfind
        cases hfind
      refine ih _ i ?_ (fun o' ho' => h o' (List.mem_cons_of_mem _ ho'))
      rw [mapGet_mapSet_ne hne, hacc]

theorem correlate_fold_eq_append (newOptions : List FieldOption) :
    ∀ (opts : List FieldOption) (acc : List (String × String)),
      (∀ o ∈ opts, (newOptions.find? (fun option => option.name == o.name)).isSome) →
      (∀ o ∈ opts, mapGet acc o.id = none) →
      (opts.map FieldOption.id).Nodup →
      opts.foldl (correlateStep newOptions) acc =
        acc ++ opts.map (fun o => (o.id, targetIdOf newOptions o)) := by
  intro opts
  induction opts with
  | nil => intro acc _ _ _; simp
  | cons o rest ih =>
    intro acc hmatch hacc hnodup
    rw [List.foldl_cons]
    obtain ⟨n, hfind⟩ := Option.isSome_iff_exists.mp (hmatch o (List.mem_cons_self _ _))
    simp only [correlateStep, hfind]
    rw [mapSet_of_get_eq_none _ (hacc o (List.mem_cons_self _ _))]
    simp only [List.map_cons, List.nodup_cons] at hnodup
    rw [ih (acc ++ [(o.id, n.id)])
      (fun o' ho' => hmatch o' (List.mem_cons_of_mem _ ho'))
      (fun o' ho' => by
        rw [mapGet_append, hacc o' (List.mem_cons_of_mem _ ho')]
        simp only [Option.orElse, Option.none_orElse]
        rw [mapGet_cons]
        have hne : (o.id == o'.id) = false := by
          refine beq_eq_false_iff_ne.mpr (fun hid => ?_)
          exact hnodup.1 (hid ▸ List.mem_map.mpr ⟨o', ho', rfl⟩)
        simp [hne, mapGet_nil])
      hnodup.2]
    have : targetIdOf newOptions o = n.id := by
      simp [targetIdOf, hfind]
    simp [this]

theorem nodup_map_inj {α β : Type} [DecidableEq β] {f : α → β} {l : List α}
    (h : (l.map f).Nodup) :
    ∀ a ∈ l, ∀ b ∈ l, f a = f b → a = b := by
  induction l with
  | nil => intro a ha; cases ha
  | cons x rest ih =>
    simp only [List.map_cons, List.nodup_cons] at h
    intro a ha b hb hab
    rcases List.mem_cons.mp ha with rfl | ha' <;> rcases List.mem_cons.mp hb with rfl | hb'
    · rfl
    · exact absurd (hab ▸ List.mem_map.mpr ⟨b, hb', rfl⟩) h.1
    · exact absurd (hab ▸ List.mem_map.mpr ⟨a, ha', rfl⟩) h.1
    · exact ih h.2 a ha' b hb' hab

theorem find?_name_eq_of_nodup {l : List FieldOption} {n : FieldOption} {nm : String}
    (hnodup : (l.map FieldOption.name).Nodup) (hmem : n ∈ l) (hname : n.name = nm) :
    l.find? (fun option => option.name == nm) = some n := by
  induction l with
  | nil => cases hmem
  | cons x rest ih =>
    simp only [List.map_cons, List.nodup_cons] at hnodup
    rcases List.mem_cons.mp hmem with rfl | hmem'
    · rw [List.find?_cons_of_pos _ (by simp [hname])]
    · have hne : (x.name == nm) = false := by
        refine beq_eq_false_iff_ne.mpr (fun h => ?_)
        refine hnodup.1 ?_
        rw [h.trans hname.symm]
        exact List.mem_map.mpr ⟨n, hmem', rfl⟩
      rw [List.find?_cons_of_neg _ (by simp [hne])]
      exact ih hnodup.2 hmem'

/-! ## Claims -/

/-- C1, counterexample: with equal-length option lists `[{s1, A}]` and
`[{t1, B}]` the source name `A` has no matching target name, yet
`correlateCustomFieldOptions` does not fail — it returns an empty correlation,
refuting the claim that correlation fails with an `OptionCorrelationMismatch`
error in this situation. -/
theorem c1_counterexample :
    correlateCustomFieldOptions [⟨"s1", "A"⟩] [⟨"t1", "B"⟩] =
      .ok [] := by rfl

/-- C1 (amended): for equal-length source and target option lists, option
correlation never fails; a source option whose name has no matching target
option name is silently left out of the returned correlation (stated for
pairwise-distinct source option IDs, so that "its entry" is well defined). -/
theorem c1_amended (oldOptions newOptions : List FieldOption)
    (hlen : oldOptions.length = newOptions.length)
    (hids : (oldOptions.map FieldOption.id).Nodup) :
    ∃ m, correlateCustomFieldOptions oldOptions newOptions = .ok m ∧
      ∀ o ∈ oldOptions, (∀ n ∈ newOptions, n.name ≠ o.name) →
        mapGet m o.id = none := by
  refine ⟨oldOptions.foldl (correlateStep newOptions) [], ?_, ?_⟩
  · simp [correlateCustomFieldOptions, hlen]
  · intro o ho hnone
    refine correlate_fold_get_none newOptions oldOptions [] o.id (mapGet_nil _) ?_
    intro o' ho' hid
    have ho'o : o' = o := nodup_map_inj hids o' ho' o ho hid
    subst ho'o
    refine List.find?_eq_none.mpr (fun n hn => ?_)
    simp only [beq_eq_false_iff_ne, ne_eq, Bool.not_eq_true]
    exact hnone n hn

/-- C1 (amended), witness at a concrete input. -/
theorem c1_amended_witness :
    ∃ m, correlateCustomFieldOptions [⟨"s9", "High"⟩] [⟨"t9", "Low"⟩] = .ok m ∧
      ∀ o ∈ [(⟨"s9", "High"⟩ : FieldOption)],
        (∀ n ∈ [(⟨"t9", "Low"⟩ : FieldOption)], n.name ≠ o.name) →
        mapGet m o.id = none :=
  c1_amended [⟨"s9", "High"⟩] [⟨"t9", "Low"⟩] (by decide) (by decide)

/-- C3, counterexample: a mapping file whose headers are not
`source_repository`/`target_repository` but which has no data rows loads
successfully with an empty table, refuting the claim that loading always
fails regardless of row content. -/
theorem c3_counterexample :
    readRepositoryMappings ⟨["foo", "bar"], []⟩ = .ok [] := by rfl

/-- C3 (amended): loading a mapping file whose column headers are not exactly
the two names `source_repository` and `target_repository` fails with the
format error provided the file has at least one data row (rows are parsed
against the header row, so each has as many cells as there are headers); with
zero data rows the per-row header check never runs and loading succeeds with
the empty table. -/
theorem c3_amended (file : CsvFile)
    (hbad : ¬ (file.headers.length = 2 ∧ "source_repository" ∈ file.headers ∧
      "target_repository" ∈ file.headers))
    (hrows : file.records ≠ [])
    (hcells : ∀ r ∈ file.records, r.length = file.headers.length) :
    readRepositoryMappings file =
      .error "Your --repository-mappings-csv is invalid. Please start from a template CSV generated by the `export` command, filling out the `target_repository` field." := by
  obtain ⟨r, rest, hrec⟩ := List.exists_cons_of_ne_nil hrows
  have hr : r.length = file.headers.length := hcells r (by rw [hrec]; exact List.mem_cons_self _ _)
  unfold readRepositoryMappings parsedRows
  rw [hrec, List.map_cons]
  unfold readRows
  have hkeys : (file.headers.zip r).map Prod.fst = file.headers :=
    List.map_fst_zip _ _ (le_of_eq hr.symm)
  rw [if_neg (by rw [hkeys]; exact hbad)]

/-- C3 (amended), witness at a concrete input. -/
theorem c3_amended_witness :
    readRepositoryMappings ⟨["foo", "bar"], [["a", "b"]]⟩ =
      .error "Your --repository-mappings-csv is invalid. Please start from a template CSV generated by the `export` command, filling out the `target_repository` field." :=
  c3_amended ⟨["foo", "bar"], [["a", "b"]]⟩ (by decide) (by decide) (by decide)

/-- C5, counterexample: for a DraftIssue with creator `alice`, timestamp `T`
and body `hello`, the body actually sent wraps the attribution line in
markdown bold and wraps the login in backticks —
it is not the plain string `Created by @alice on T` followed by a blank line
and the body, refuting the claimed literal format. -/
theorem c5_counterexample :
    createProjectItem sampleEnv []
        ⟨"PVTI_1", false, .draftIssue "t" "hello" "alice" "T", []⟩ =
      .ok ([Call.addDraft "t" "**Created by `@alice` on T**\n\nhello"],
        some "D1") ∧
    "**Created by `@alice` on T**\n\nhello" ≠
      "Created by @alice on T\n\nhello" := by
  exact ⟨rfl, by decide⟩

/-- C5 (amended): for every DraftIssue item with creator `c`, creation
timestamp `t` and original body `b`, the created draft item's body is exactly
the markdown string starting with two asterisks, then `Created by `, then the
creator login wrapped in backticks and prefixed with an at sign, then ` on `,
then the timestamp, then two asterisks, followed by a blank line and the
original body. -/
theorem c5_amended (env : Env) (repositoryMappings : List (String × String))
    (itemId : String) (archived : Bool)
    (title body creatorLogin createdAt : String)
    (fieldValues : List SourceFieldValue) :
    createProjectItem env repositoryMappings
        ⟨itemId, archived, .draftIssue title body creatorLogin createdAt,
          fieldValues⟩ =
      .ok ([Call.addDraft title
          ("**Created by `@" ++ creatorLogin ++ "` on " ++ createdAt ++
            "**\n\n" ++ body)],
        some (env.addDraftResult title
          ("**Created by `@" ++ creatorLogin ++ "` on " ++ createdAt ++
            "**\n\n" ++ body))) := rfl

/-- C6: replaying a field value of kind TEXT, NUMBER or DATE (a source value
with exactly the matching member populated, per the snapshot data model)
produces a payload with exactly that member populated and the other three
empty; replaying a SINGLE_SELECT value whose source option ID has no entry in
the field's option correlation produces a payload with all four members empty
and still issues the update call — no error is raised. -/
theorem c6_field_value_payload (fieldMappings : List (String × CustomField))
    (createdItemId : String) (fv : SourceFieldValue)
    (optionMappings : Option (List (String × String))) :
    (∀ d, fv.date = some d → fv.number = none → fv.text = none →
      fv.optionId = none →
      buildFieldValue fv optionMappings = ⟨some d, none, none, none⟩) ∧
    (∀ x, fv.number = some x → fv.date = none → fv.text = none →
      fv.optionId = none →
      buildFieldValue fv optionMappings = ⟨none, some x, none, none⟩) ∧
    (∀ s, fv.text = some s → fv.date = none → fv.number = none →
      fv.optionId = none →
      buildFieldValue fv optionMappings = ⟨none, none, some s, none⟩) ∧
    (∀ o m, fv.optionId = some o → fv.date = none → fv.number = none →
      fv.text = none → optionMappings = some m → mapGet m o = none →
      buildFieldValue fv optionMappings = ⟨none, none, none, none⟩) ∧
    (∀ fieldMapping, mapGet fieldMappings fv.fieldId = some fieldMapping →
      replayFieldValues fieldMappings createdItemId [fv] =
        [Call.updateFieldValue createdItemId fieldMapping.targetId
          (buildFieldValue fv fieldMapping.optionMappings)]) := by
  refine ⟨?_, ?_, ?_, ?_, ?_⟩
  · intro d hd hn ht ho
    simp [buildFieldValue, hd, hn, ht, ho, jsTruthyStr]
  · intro x hx hd ht ho
    simp [buildFieldValue, hx, hd, ht, ho, jsTruthyStr]
  · intro s hs hd hn ho
    simp [buildFieldValue, hs, hd, hn, ho, jsTruthyStr]
  · intro o m ho hd hn ht hom hget
    by_cases hoe : o = ""
    · simp [buildFieldValue, ho, hd, hn, ht, hom, jsTruthyStr, hoe]
    · simp [buildFieldValue, ho, hd, hn, ht, hom, jsTruthyStr, hoe, hget]
  · intro fieldMapping hmap
    simp [replayFieldValues, hmap]

/-- C6, witness at a concrete input (a SINGLE_SELECT value whose option ID is
missing from the option correlation). -/
theorem c6_field_value_payload_witness :
    buildFieldValue
        ⟨"ProjectV2ItemFieldSingleSelectValue", "F1", "Priority",
          none, none, none, some "opt1"⟩
        (some [("other", "mapped")]) =
      ⟨none, none, none, none⟩ :=
  (c6_field_value_payload [] "I1"
      ⟨"ProjectV2ItemFieldSingleSelectValue", "F1", "Priority",
        none, none, none, some "opt1"⟩
      (some [("other", "mapped")])).2.2.2.1
    "opt1" [("other", "mapped")] rfl rfl rfl rfl rfl (by decide)

/-- C4, counterexample: when the target project's Status options already
correlate on the very first fetch, the protocol's first action is the fetch
plus correlation check and no prompt is ever printed — refuting the claim
that on first entry the engine prompts and blocks before any correlation
check. -/
theorem c4_counterexample :
    (promptUntilStatusFieldsCorrelate ⟨"SF1", [⟨"so1", "Todo"⟩]⟩ "u"
        [⟨"TF1", [⟨"to1", "Todo"⟩]⟩] true).1 =
      [.fetchAndCheck ⟨"TF1", [⟨"to1", "Todo"⟩]⟩, .done] ∧
    ∀ e ∈ (promptUntilStatusFieldsCorrelate ⟨"SF1", [⟨"so1", "Todo"⟩]⟩ "u"
        [⟨"TF1", [⟨"to1", "Todo"⟩]⟩] true).1, e.isPrompt = false := by
  refine ⟨rfl, by decide⟩

/-- C4 (amended): on first entry the Status reconciliation protocol first
fetches the target's Status options and attempts the by-name correlation; a
prompt occurs at all precisely when that first correlation check fails, and
in that case the second event is the first-run prompt printing the source's
expected option names and the target project's settings URL, after which the
protocol re-fetches and re-checks. -/
theorem c4_amended (sourceStatusField : StatusField) (targetProjectUrl : String)
    (target : StatusField) (rest : List StatusField) :
    ((promptUntilStatusFieldsCorrelate sourceStatusField targetProjectUrl
        (target :: rest) true).1.head? = some (.fetchAndCheck target)) ∧
    ((∃ e ∈ (promptUntilStatusFieldsCorrelate sourceStatusField targetProjectUrl
        (target :: rest) true).1, e.isPrompt = true) ↔
      (correlateCustomFieldOptions sourceStatusField.options
        target.options).isOk = false) ∧
    ((correlateCustomFieldOptions sourceStatusField.options
        target.options).isOk = false →
      (promptUntilStatusFieldsCorrelate sourceStatusField targetProjectUrl
        (target :: rest) true).1[1]? =
        some (.promptFirst (sourceStatusField.options.map FieldOption.name)
          (targetProjectUrl ++ "/settings/fields/Status"))) := by
  cases hcorr : correlateCustomFieldOptions sourceStatusField.options
      target.options with
  | ok m =>
    simp only [promptUntilStatusFieldsCorrelate, hcorr]
    refine ⟨rfl, ?_, ?_⟩
    · simp [Except.isOk, Except.toBool, StatusEvent.isPrompt]
    · simp [Except.isOk, Except.toBool]
  | error e =>
    simp only [promptUntilStatusFieldsCorrelate, hcorr]
    refine ⟨rfl, ?_, ?_⟩
    · simp only [Except.isOk, Except.toBool, eq_self_iff_true, iff_true]
      exact ⟨.promptFirst (sourceStatusField.options.map FieldOption.name)
        (targetProjectUrl ++ "/settings/fields/Status"),
        by simp [StatusEvent.isPrompt]⟩
    · intro _
      simp

/-- C4 (amended), witness at a concrete input whose first check fails. -/
theorem c4_amended_witness :
    (promptUntilStatusFieldsCorrelate ⟨"SF2", [⟨"so2", "Todo"⟩]⟩ "u2"
        [⟨"TF2", []⟩] true).1[1]? =
      some (.promptFirst ["Todo"] "u2/settings/fields/Status") :=
  (c4_amended ⟨"SF2", [⟨"so2", "Todo"⟩]⟩ "u2" ⟨"TF2", []⟩
    []).2.2 (by decide)

/-- C2, counterexample: with equal-length lists whose names are duplicated —
sources `[{s1, A}, {s2, A}]` and targets `[{t1, A}, {t2, A}]` — every source
name appears among the target names, yet both source IDs are correlated to
`t1`, so the result is not a bijection onto the target option IDs (`t2` is
never hit), refuting the claim as stated for arbitrary name choices. -/
theorem c2_counterexample :
    correlateCustomFieldOptions [⟨"s1", "A"⟩, ⟨"s2", "A"⟩]
        [⟨"t1", "A"⟩, ⟨"t2", "A"⟩] = .ok [("s1", "t1"), ("s2", "t1")] ∧
    ¬ ∀ n ∈ [(⟨"t1", "A"⟩ : FieldOption), ⟨"t2", "A"⟩],
        ∃ o ∈ [(⟨"s1", "A"⟩ : FieldOption), ⟨"s2", "A"⟩],
          mapGet [("s1", "t1"), ("s2", "t1")] o.id = some n.id := by
  exact ⟨rfl, by decide⟩

/-- C2 (amended): when the source and target option lists have equal length,
pairwise-distinct option IDs on each side and pairwise-distinct source names,
and every source name appears among the target names, option correlation
returns a total bijection from source option IDs to target option IDs (total,
injective and onto); when the lists have different lengths, correlation fails
for every choice of names. -/
theorem c2_amended (oldOptions newOptions : List FieldOption) :
    (oldOptions.length ≠ newOptions.length →
      ∃ e, correlateCustomFieldOptions oldOptions newOptions = .error e) ∧
    (oldOptions.length = newOptions.length →
      (oldOptions.map FieldOption.name).Nodup →
      (oldOptions.map FieldOption.id).Nodup →
      (newOptions.map FieldOption.id).Nodup →
      (∀ o ∈ oldOptions, ∃ n ∈ newOptions, n.name = o.name) →
      ∃ m, correlateCustomFieldOptions oldOptions newOptions = .ok m ∧
        (∀ o ∈ oldOptions, ∃ t, mapGet m o.id = some t ∧
          t ∈ newOptions.map FieldOption.id) ∧
        (∀ o₁ ∈ oldOptions, ∀ o₂ ∈ oldOptions, ∀ t,
          mapGet m o₁.id = some t → mapGet m o₂.id = some t → o₁.id = o₂.id) ∧
        (∀ n ∈ newOptions, ∃ o ∈ oldOptions, mapGet m o.id = some n.id)) := by
  constructor
  · intro h
    exact ⟨"Unable to correlate custom field options: old and new options fields have different numbers of options",
      by simp [correlateCustomFieldOptions, h]⟩
  · intro hlen hnames holdids hnewids hmatch
    have hfind : ∀ o ∈ oldOptions,
        (newOptions.find? (fun option => option.name == o.name)).isSome := by
      intro o ho
      rw [List.find?_isSome]
      obtain ⟨n, hn, hname⟩ := hmatch o ho
      exact ⟨n, hn, by simp [hname]⟩
    have hfold : oldOptions.foldl (correlateStep newOptions) [] =
        oldOptions.map (fun o => (o.id, targetIdOf newOptions o)) := by
      rw [correlate_fold_eq_append newOptions oldOptions [] hfind
        (fun o _ => mapGet_nil _) holdids]
      simp
    have hkeys : (oldOptions.map
        (fun o => (o.id, targetIdOf newOptions o))).map Prod.fst =
        oldOptions.map FieldOption.id := by
      rw [List.map_map]; rfl
    have hkeysnodup : ((oldOptions.map
        (fun o => (o.id, targetIdOf newOptions o))).map Prod.fst).Nodup := by
      rw [hkeys]; exact holdids
    have hfindspec : ∀ o ∈ oldOptions, ∃ n ∈ newOptions,
        newOptions.find? (fun option => option.name == o.name) = some n ∧
        n.name = o.name ∧ targetIdOf newOptions o = n.id := by
      intro o ho
      obtain ⟨n, hn⟩ := Option.isSome_iff_exists.mp (hfind o ho)
      refine ⟨n, List.mem_of_find?_eq_some hn, hn, ?_, ?_⟩
      · have hb0 := List.find?_some hn
        have hb : (n.name == o.name) = true := hb0
        exact eq_of_beq hb
      · simp [targetIdOf, hn]
    have hget : ∀ o ∈ oldOptions,
        mapGet (oldOptions.map (fun o => (o.id, targetIdOf newOptions o)))
          o.id = some (targetIdOf newOptions o) := by
      intro o ho
      exact mapGet_of_nodup hkeysnodup (List.mem_map.mpr ⟨o, ho, rfl⟩)
    refine ⟨oldOptions.map (fun o => (o.id, targetIdOf newOptions o)),
      by simp [correlateCustomFieldOptions, hlen, hfold], ?_, ?_, ?_⟩
    · intro o ho
      obtain ⟨n, hn, _, _, htid⟩ := hfindspec o ho
      exact ⟨n.id, by rw [hget o ho, htid], List.mem_map.mpr ⟨n, hn, rfl⟩⟩
    · intro o₁ h₁ o₂ h₂ t hg₁ hg₂
      obtain ⟨n₁, hn₁, _, hname₁, htid₁⟩ := hfindspec o₁ h₁
      obtain ⟨n₂, hn₂, _, hname₂, htid₂⟩ := hfindspec o₂ h₂
      rw [hget o₁ h₁, htid₁] at hg₁
      rw [hget o₂ h₂, htid₂] at hg₂
      have hid : n₁.id = n₂.id :=
        (Option.some.inj hg₁).trans (Option.some.inj hg₂).symm
      have hn12 : n₁ = n₂ := nodup_map_inj hnewids n₁ hn₁ n₂ hn₂ hid
      have hname : o₁.name = o₂.name := by rw [← hname₁, hn12, hname₂]
      have ho12 : o₁ = o₂ := nodup_map_inj hnames o₁ h₁ o₂ h₂ hname
      rw [ho12]
    · have hsub : (oldOptions.map FieldOption.name) ⊆
          (newOptions.map FieldOption.name) := by
        intro nm hnm
        obtain ⟨o, ho, rfl⟩ := List.mem_map.mp hnm
        obtain ⟨n, hn, hname⟩ := hmatch o ho
        exact List.mem_map.mpr ⟨n, hn, hname⟩
      have hperm : (oldOptions.map FieldOption.name).Perm
          (newOptions.map FieldOption.name) :=
        (hnames.subperm hsub).perm_of_length_le (by simp [hlen])
      have hnewnames : (newOptions.map FieldOption.name).Nodup :=
        hperm.nodup hnames
      intro n hn
      have hmemname : n.name ∈ oldOptions.map FieldOption.name :=
        hperm.mem_iff.mpr (List.mem_map.mpr ⟨n, hn, rfl⟩)
      obtain ⟨o, ho, honame⟩ := List.mem_map.mp hmemname
      have hfindo : newOptions.find? (fun option => option.name == o.name) =
          some n :=
        find?_name_eq_of_nodup hnewnames hn honame.symm
      refine ⟨o, ho, ?_⟩
      rw [hget o ho]
      simp [targetIdOf, hfindo]

/-- C2 (amended), witness: a successful bijection at a concrete input where
names match in a different order, and a deterministic failure at a concrete
input of different lengths. -/
theorem c2_amended_witness :
    (correlateCustomFieldOptions [⟨"s3", "A"⟩, ⟨"s4", "B"⟩]
      [⟨"t3", "B"⟩, ⟨"t4", "A"⟩]).isOk = true ∧
    (∃ e, correlateCustomFieldOptions [⟨"s5", "A"⟩] [] = .error e) := by
  constructor
  · obtain ⟨m, hm, -⟩ := (c2_amended [⟨"s3", "A"⟩, ⟨"s4", "B"⟩]
      [⟨"t3", "B"⟩, ⟨"t4", "A"⟩]).2 (by decide) (by decide) (by decide)
      (by decide) (by decide)
    rw [hm]; rfl
  · exact (c2_amended [⟨"s5", "A"⟩] []).1 (by decide)

theorem replay_no_archive (fieldMappings : List (String × CustomField))
    (createdItemId : String) :
    ∀ fvs : List SourceFieldValue,
      (replayFieldValues fieldMappings createdItemId fvs).any Call.isArchive =
        false := by
  intro fvs
  induction fvs with
  | nil => rfl
  | cons fv rest ih =>
    cases h : mapGet fieldMappings fv.fieldId with
    | none => simp [replayFieldValues, h, Call.isArchive, ih]
    | some fm => simp [replayFieldValues, h, Call.isArchive, ih]

theorem cpi_calls_spec (env : Env) (repositoryMappings : List (String × String))
    (itemId repo : String) (number : Nat) (title : String) :
    ((createProjectItemReferencingIssueOrPullRequest env repositoryMappings
        itemId repo number title).1.any Call.isArchive = false) ∧
    ((createProjectItemReferencingIssueOrPullRequest env repositoryMappings
        itemId repo number title).2.isSome →
      (createProjectItemReferencingIssueOrPullRequest env repositoryMappings
        itemId repo number title).1.any Call.isCreation = true) ∧
    ((createProjectItemReferencingIssueOrPullRequest env repositoryMappings
        itemId repo number title).2 = none →
      (createProjectItemReferencingIssueOrPullRequest env repositoryMappings
        itemId repo number title).1.any Call.isCreation = false ∧
      (createProjectItemReferencingIssueOrPullRequest env repositoryMappings
        itemId repo number title).1.any Call.isWarn = true) := by
  unfold createProjectItemReferencingIssueOrPullRequest
  by_cases hdest : jsTruthyStr (mapGet repositoryMappings repo) = false
  · simp [hdest, Call.isArchive, Call.isCreation, Call.isWarn]
  · rw [if_neg hdest]
    cases hres : env.resolveIssueOrPullRequest
        (splitOwnerName ((mapGet repositoryMappings repo).getD "")).1
        (splitOwnerName ((mapGet repositoryMappings repo).getD "")).2
        number with
    | none => simp [hres, Call.isArchive, Call.isCreation, Call.isWarn]
    | some p =>
      by_cases ht : title ≠ p.2 <;>
        simp [hres, ht, Call.isArchive, Call.isCreation]

theorem createProjectItem_calls_spec (env : Env)
    (repositoryMappings : List (String × String)) (item : ProjectItem) :
    ∀ creationCalls createdOpt,
      createProjectItem env repositoryMappings item =
        .ok (creationCalls, createdOpt) →
      creationCalls.any Call.isArchive = false ∧
      (createdOpt.isSome → creationCalls.any Call.isCreation = true) ∧
      (createdOpt = none → creationCalls.any Call.isCreation = false ∧
        creationCalls.any Call.isWarn = true) := by
  intro creationCalls createdOpt hcreate
  obtain ⟨itemId, archived, content, fieldValues⟩ := item
  cases content with
  | unknown tn => exact absurd hcreate (by simp [createProjectItem])
  | draftIssue t b c ca =>
    simp only [createProjectItem, Except.ok.injEq, Prod.mk.injEq] at hcreate
    obtain ⟨hcc, hco⟩ := hcreate
    subst hcc
    subst hco
    refine ⟨by simp [Call.isArchive], fun _ => by simp [Call.isCreation], ?_⟩
    intro h
    cases h
  | issue repo number title =>
    simp only [createProjectItem, Except.ok.injEq] at hcreate
    have h1 : (createProjectItemReferencingIssueOrPullRequest env
        repositoryMappings itemId repo number title).1 = creationCalls := by
      rw [hcreate]
    have h2 : (createProjectItemReferencingIssueOrPullRequest env
        repositoryMappings itemId repo number title).2 = createdOpt := by
      rw [hcreate]
    subst h1
    subst h2
    exact cpi_calls_spec env repositoryMappings itemId repo number title
  | pullRequest repo number title =>
    simp only [createProjectItem, Except.ok.injEq] at hcreate
    have h1 : (createProjectItemReferencingIssueOrPullRequest env
        repositoryMappings itemId repo number title).1 = creationCalls := by
      rw [hcreate]
    have h2 : (createProjectItemReferencingIssueOrPullRequest env
        repositoryMappings itemId repo number title).2 = createdOpt := by
      rw [hcreate]
    subst h1
    subst h2
    exact cpi_calls_spec env repositoryMappings itemId repo number title

/-- C7: for every project item, the archive call on the newly created item is
issued if and only if the source item's `isArchived` flag is true and the
creation call returned a (truthy) identifier; and whenever it is issued, it
sits in the trace immediately after the creation calls — whose last call is
the actual creation and which contain no archive call — and before the
field-value replay, which contains no archive call either; skipped items get
no archive call. -/
theorem c7_archive_iff (env : Env) (repositoryMappings : List (String × String))
    (fieldMappings : List (String × CustomField)) (item : ProjectItem) :
    ((runItem env repositoryMappings fieldMappings item).1.any Call.isArchive =
        true ↔
      item.isArchived = true ∧
        ∃ creationCalls createdItemId,
          createProjectItem env repositoryMappings item =
            .ok (creationCalls, some createdItemId) ∧ createdItemId ≠ "") ∧
    (∀ creationCalls createdItemId,
      createProjectItem env repositoryMappings item =
        .ok (creationCalls, some createdItemId) →
      createdItemId ≠ "" → item.isArchived = true →
      (runItem env repositoryMappings fieldMappings item).1 =
        creationCalls ++ Call.archive createdItemId ::
          replayFieldValues fieldMappings createdItemId
            (item.fieldValues.filter isProjectItemCustomFieldValue) ∧
      creationCalls.any Call.isCreation = true ∧
      creationCalls.any Call.isArchive = false ∧
      (replayFieldValues fieldMappings createdItemId
        (item.fieldValues.filter isProjectItemCustomFieldValue)).any
          Call.isArchive = false) := by
  cases hc : createProjectItem env repositoryMappings item with
  | error e =>
    have hrun : runItem env repositoryMappings fieldMappings item = ([], some e) := by
      simp [runItem, hc]
    refine ⟨?_, ?_⟩
    · rw [hrun]
      constructor
      · intro h; cases h
      · rintro ⟨-, cc', cid', heq, -⟩
        cases heq
    · intro cc' cid' heq
      cases heq
  | ok result =>
    obtain ⟨cc, copt⟩ := result
    obtain ⟨hnoarch, hcrea, -⟩ :=
      createProjectItem_calls_spec env repositoryMappings item cc copt hc
    cases copt with
    | none =>
      have hrun : runItem env repositoryMappings fieldMappings item = (cc, none) := by
        simp [runItem, hc, jsTruthyStr]
      refine ⟨?_, ?_⟩
      · rw [hrun]
        constructor
        · intro h
          rw [hnoarch] at h
          cases h
        · rintro ⟨-, cc', cid', heq, -⟩
          simp at heq
      · intro cc' cid' heq
        exact absurd heq (by simp)
    | some cid =>
      by_cases hcid : cid = ""
      · subst hcid
        have hrun : runItem env repositoryMappings fieldMappings item = (cc, none) := by
          simp [runItem, hc, jsTruthyStr]
        refine ⟨?_, ?_⟩
        · rw [hrun]
          constructor
          · intro h
            rw [hnoarch] at h
            cases h
          · rintro ⟨-, cc', cid', heq, hne⟩
            simp only [Except.ok.injEq, Prod.mk.injEq, Option.some.injEq] at heq
            exact absurd heq.2.symm hne
        · intro cc' cid' heq hne
          simp only [Except.ok.injEq, Prod.mk.injEq, Option.some.injEq] at heq
          exact absurd heq.2.symm hne
      · have htr : jsTruthyStr (some cid) = true := by simp [jsTruthyStr, hcid]
        cases harch : item.isArchived with
        | false =>
          have hrun : (runItem env repositoryMappings fieldMappings item).1 =
              cc ++ replayFieldValues fieldMappings cid
                (item.fieldValues.filter isProjectItemCustomFieldValue) := by
            simp [runItem, hc, htr, harch]
          refine ⟨?_, ?_⟩
          · rw [hrun]
            constructor
            · intro h
              rw [List.any_append, hnoarch, replay_no_archive] at h
              cases h
            · rintro ⟨hA, -⟩
              cases hA
          · intro cc' cid' heq hne hA
            cases hA
        | true =>
          have hrun : (runItem env repositoryMappings fieldMappings item).1 =
              cc ++ Call.archive cid ::
                replayFieldValues fieldMappings cid
                  (item.fieldValues.filter isProjectItemCustomFieldValue) := by
            simp [runItem, hc, htr, harch]
          refine ⟨?_, ?_⟩
          · constructor
            · intro _
              exact ⟨rfl, cc, cid, rfl, hcid⟩
            · intro _
              rw [hrun]
              simp [List.any_append, Call.isArchive]
          · intro cc' cid' heq hne _
            simp only [Except.ok.injEq, Prod.mk.injEq, Option.some.injEq] at heq
            obtain ⟨hcc', hcid'⟩ := heq
            subst hcc'
            subst hcid'
            exact ⟨hrun, hcrea rfl, hnoarch, replay_no_archive _ _ _⟩

/-- C7, witness: an archived issue item that resolves successfully — the
archive call lands right after the creation call. -/
theorem c7_archive_iff_witness :
    (runItem sampleEnv [("a/b", "c/d")] []
        ⟨"PVTI_2", true, .issue "a/b" 5 "Title", []⟩).1 =
      [Call.resolveContent "c" "d" 5, Call.addItem "C1"] ++
        Call.archive "I1" ::
          replayFieldValues [] "I1"
            (List.filter isProjectItemCustomFieldValue []) ∧
    [Call.resolveContent "c" "d" 5, Call.addItem "C1"].any Call.isCreation =
      true ∧
    [Call.resolveContent "c" "d" 5, Call.addItem "C1"].any Call.isArchive =
      false ∧
    (replayFieldValues [] "I1"
      (List.filter isProjectItemCustomFieldValue [])).any Call.isArchive =
      false :=
  (c7_archive_iff sampleEnv [("a/b", "c/d")] []
      ⟨"PVTI_2", true, .issue "a/b" 5 "Title", []⟩).2
    [Call.resolveContent "c" "d" 5, Call.addItem "C1"] "I1"
    (by rfl) (by decide) rfl

/-- C9: an Issue or PullRequest item whose source repository has no (truthy)
entry in the mapping table, or whose mapped issue/pull request cannot be
resolved by number, is skipped with a warning: its trace contains a warning
and no creation call, its creation result is `none`, and the item loop
continues with the remaining items exactly as if it had started there. -/
theorem c9_skip (env : Env) (repositoryMappings : List (String × String))
    (fieldMappings : List (String × CustomField)) (item : ProjectItem)
    (rest : List ProjectItem) (repo : String) (number : Nat) (title : String)
    (hcontent : item.content = .issue repo number title ∨
      item.content = .pullRequest repo number title)
    (hskip : jsTruthyStr (mapGet repositoryMappings repo) = false ∨
      (∃ dest, mapGet repositoryMappings repo = some dest ∧ dest ≠ "" ∧
        env.resolveIssueOrPullRequest (splitOwnerName dest).1
          (splitOwnerName dest).2 number = none)) :
    ∃ itemCalls,
      runItem env repositoryMappings fieldMappings item = (itemCalls, none) ∧
      itemCalls.any Call.isCreation = false ∧
      itemCalls.any Call.isWarn = true ∧
      runItems env repositoryMappings fieldMappings (item :: rest) =
        (itemCalls ++ (runItems env repositoryMappings fieldMappings rest).1,
         (runItems env repositoryMappings fieldMappings rest).2) := by
  obtain ⟨itemId, archived, content, fieldValues⟩ := item
  have hcontent' : content = .issue repo number title ∨
      content = .pullRequest repo number title := hcontent
  have hcpi : ∃ itemCalls,
      createProjectItemReferencingIssueOrPullRequest env repositoryMappings
        itemId repo number title = (itemCalls, none) ∧
      itemCalls.any Call.isCreation = false ∧
      itemCalls.any Call.isWarn = true := by
    rcases hskip with h | ⟨dest, hdest, hne, hres⟩
    · refine ⟨[Call.warn ("Skipping project item " ++ itemId ++
        " because there is no repository mapping for " ++ repo)], ?_,
        by simp [Call.isCreation], by simp [Call.isWarn]⟩
      simp only [createProjectItemReferencingIssueOrPullRequest]
      rw [if_pos h]
    · have htr : jsTruthyStr (mapGet repositoryMappings repo) = true := by
        rw [hdest]; simp [jsTruthyStr, hne]
      refine ⟨[Call.resolveContent (splitOwnerName dest).1
          (splitOwnerName dest).2 number,
        Call.warn ("Skipping project item " ++ itemId ++
          " because issue/pull request " ++ dest ++ "#" ++ toString number ++
          " does not exist")], ?_,
        by simp [Call.isCreation], by simp [Call.isWarn]⟩
      simp only [createProjectItemReferencingIssueOrPullRequest]
      rw [if_neg (by simp [htr])]
      simp only [hdest, Option.getD_some]
      rw [hres]
  obtain ⟨itemCalls, hcalls, hnocrea, hwarn⟩ := hcpi
  have hcreate : createProjectItem env repositoryMappings
      ⟨itemId, archived, content, fieldValues⟩ = .ok (itemCalls, none) := by
    rcases hcontent' with rfl | rfl
    · simp [createProjectItem, hcalls]
    · simp [createProjectItem, hcalls]
  have hrun : runItem env repositoryMappings fieldMappings
      ⟨itemId, archived, content, fieldValues⟩ = (itemCalls, none) := by
    simp [runItem, hcreate, jsTruthyStr]
  refine ⟨itemCalls, hrun, hnocrea, hwarn, ?_⟩
  simp [runItems, hrun]

/-- C9, witness: an issue item with no repository mapping is skipped with a
warning and the (empty) remainder of the loop proceeds. -/
theorem c9_skip_witness :
    ∃ itemCalls,
      runItem sampleEnv [] [] ⟨"PVTI_3", false, .issue "x/y" 7 "T", []⟩ =
        (itemCalls, none) ∧
      itemCalls.any Call.isCreation = false ∧
      itemCalls.any Call.isWarn = true ∧
      runItems sampleEnv [] []
          (⟨"PVTI_3", false, .issue "x/y" 7 "T", []⟩ :: []) =
        (itemCalls ++ (runItems sampleEnv [] [] []).1,
         (runItems sampleEnv [] [] []).2) :=
  c9_skip sampleEnv [] [] ⟨"PVTI_3", false, .issue "x/y" 7 "T", []⟩ []
    "x/y" 7 "T" (Or.inl rfl) (Or.inl rfl)

theorem rowGet_source (s t : String) :
    rowGet [("source_repository", s), ("target_repository", t)]
      "source_repository" = some s := rfl

theorem rowGet_target (s t : String) :
    rowGet [("source_repository", s), ("target_repository", t)]
      "target_repository" = some t := rfl

theorem readRows_cons_pair (s t : String)
    (rows : List (List (String × String))) (acc : List (String × String)) :
    readRows ([("source_repository", s), ("target_repository", t)] :: rows)
        acc =
      if t ≠ "" then readRows rows (mapSet acc s t) else readRows rows acc := by
  simp only [readRows]
  rw [if_pos (by simp)]
  simp only [rowGet_target, rowGet_source, Option.getD_some]

theorem readRows_pairs (rows : List (String × String)) :
    ∀ acc, (∀ p ∈ rows, mapGet acc p.1 = none) →
      (rows.map Prod.fst).Nodup →
      readRows (rows.map (fun p =>
          [("source_repository", p.1), ("target_repository", p.2)])) acc =
        .ok (acc ++ rows.filter (fun p => p.2 != "")) := by
  induction rows with
  | nil => intro acc _ _; simp [readRows]
  | cons p rest ih =>
    intro acc hacc hnodup
    simp only [List.map_cons] at hnodup ⊢
    rw [readRows_cons_pair]
    rw [List.nodup_cons] at hnodup
    by_cases ht : p.2 = ""
    · rw [if_neg (by simp [ht])]
      rw [ih acc (fun q hq => hacc q (List.mem_cons_of_mem _ hq)) hnodup.2]
      simp [List.filter_cons, ht]
    · rw [if_pos ht]
      rw [mapSet_of_get_eq_none _ (hacc p (List.mem_cons_self _ _))]
      rw [ih (acc ++ [(p.1, p.2)]) ?_ hnodup.2]
      · simp [List.filter_cons, ht]
      · intro q hq
        rw [mapGet_append, hacc q (List.mem_cons_of_mem _ hq)]
        simp only [Option.orElse, Option.none_orElse]
        rw [mapGet_cons]
        have hne : (p.1 == q.1) = false := by
          refine beq_eq_false_iff_ne.mpr (fun h => ?_)
          exact hnodup.1 (h ▸ List.mem_map.mpr ⟨q, hq, rfl⟩)
        simp [hne, mapGet_nil]

/-- C8: for every valid repository-mapping table (correct headers, one row
per source repository), lookup returns the mapped target for every row with a
non-empty target, returns absent for every row whose target is empty, and
returns absent for any source name not present in the table. -/
theorem c8_lookup (rows : List (String × String))
    (hnodup : (rows.map Prod.fst).Nodup) :
    ∃ m, readRepositoryMappings ⟨["source_repository", "target_repository"],
        rows.map (fun p => [p.1, p.2])⟩ = .ok m ∧
      (∀ p ∈ rows, (p.2 ≠ "" → mapGet m p.1 = some p.2) ∧
        (p.2 = "" → mapGet m p.1 = none)) ∧
      (∀ s, s ∉ rows.map Prod.fst → mapGet m s = none) := by
  have hparse : parsedRows ⟨["source_repository", "target_repository"],
      rows.map (fun p => [p.1, p.2])⟩ =
      rows.map (fun p =>
        [("source_repository", p.1), ("target_repository", p.2)]) := by
    simp only [parsedRows, List.map_map]
    rfl
  refine ⟨rows.filter (fun p => p.2 != ""), ?_, ?_, ?_⟩
  · unfold readRepositoryMappings
    rw [hparse, readRows_pairs rows [] (fun p _ => mapGet_nil _) hnodup]
    simp
  · intro p hp
    have hfnodup : ((rows.filter (fun p => p.2 != "")).map Prod.fst).Nodup :=
      hnodup.sublist ((List.filter_sublist _).map _)
    constructor
    · intro ht
      exact mapGet_of_nodup hfnodup (List.mem_filter.mpr ⟨hp, by simp [ht]⟩)
    · intro ht
      refine mapGet_eq_none_of_not_mem ?_
      intro hmem
      obtain ⟨q, hq, hqe⟩ := List.mem_map.mp hmem
      have hqrows := (List.mem_filter.mp hq).1
      have hq2 := (List.mem_filter.mp hq).2
      have hqp : q = p := nodup_map_inj hnodup q hqrows p hp hqe
      rw [hqp] at hq2
      simp [ht] at hq2
  · intro s hs
    refine mapGet_eq_none_of_not_mem ?_
    intro hmem
    obtain ⟨q, hq, hqe⟩ := List.mem_map.mp hmem
    exact hs (hqe ▸ List.mem_map.mpr ⟨q, (List.mem_filter.mp hq).1, rfl⟩)

/-- C8, witness: a two-row table with one mapped and one intentionally
unmapped repository. -/
theorem c8_lookup_witness :
    ∃ m, readRepositoryMappings ⟨["source_repository", "target_repository"],
        [("a/b", "c/d"), ("e/f", "")].map (fun p => [p.1, p.2])⟩ = .ok m ∧
      (∀ p ∈ [("a/b", "c/d"), ("e/f", "")],
        (p.2 ≠ "" → mapGet m p.1 = some p.2) ∧
        (p.2 = "" → mapGet m p.1 = none)) ∧
      (∀ s, s ∉ [("a/b", "c/d"), ("e/f", "")].map Prod.fst →
        mapGet m s = none) :=
  c8_lookup [("a/b", "c/d"), ("e/f", "")] (by decide)

/-- C10: when the snapshot's items reference at least one repository but the
loaded repository mapping table is empty, the run fails fatally with the
mapping-file error before any remote step: the trace is empty, so in
particular no owner resolution and no project creation happened. -/
theorem c10_empty_mappings_guard (env : Env) (sourceProject : Project)
    (sourceProjectItems : List ProjectItem)
    (repositoryMappings : List (String × String))
    (repositoryMappingsPath : String) (projectOwner : String)
    (projectTitle : Option String)
    (href : getReferencedRepositories sourceProjectItems ≠ [])
    (hmap : repositoryMappings.length = 0) :
    runImport env sourceProject sourceProjectItems repositoryMappings
        repositoryMappingsPath projectOwner projectTitle =
      ([], .failed ("You must update your repositories mapping file `" ++
        repositoryMappingsPath ++
        "` with at least one repository mapping. Please update your mappings, and try again..")) ∧
    ∀ c ∈ (runImport env sourceProject sourceProjectItems repositoryMappings
        repositoryMappingsPath projectOwner projectTitle).1,
      (∀ login, c ≠ Call.resolveOwner login) ∧
      (∀ ownerId title, c ≠ Call.createProject ownerId title) := by
  have hlen : (getReferencedRepositories sourceProjectItems).length ≠ 0 :=
    fun h => href (List.length_eq_zero.mp h)
  have hrun : runImport env sourceProject sourceProjectItems repositoryMappings
      repositoryMappingsPath projectOwner projectTitle =
      ([], .failed ("You must update your repositories mapping file `" ++
        repositoryMappingsPath ++
        "` with at least one repository mapping. Please update your mappings, and try again..")) := by
    simp only [runImport]
    rw [if_pos ⟨hlen, hmap⟩]
  refine ⟨hrun, ?_⟩
  rw [hrun]
  intro c hc
  exact absurd hc (List.not_mem_nil c)

/-- C10, witness: a snapshot with one issue item and an empty mapping table
fails immediately with an empty trace. -/
theorem c10_empty_mappings_guard_witness :
    runImport sampleEnv ⟨"T", [], []⟩
        [⟨"i1", false, .issue "a/b" 5 "t", []⟩] [] "map.csv" "octo" none =
      ([], .failed ("You must update your repositories mapping file `" ++
        "map.csv" ++
        "` with at least one repository mapping. Please update your mappings, and try again..")) :=
  (c10_empty_mappings_guard sampleEnv ⟨"T", [], []⟩
    [⟨"i1", false, .issue "a/b" 5 "t", []⟩] [] "map.csv" "octo" none
    (by decide) rfl).1

end GhMigrateProject
